import Mathlib

/-!
Verification of the mcp-zephyr server core (Zephyr Scale Cloud MCP adapter).

This file gives a shallow embedding, in Lean, of the pagination engine of
the API client (src/zephyr-client.js, function getAllPaginated), of the
pagination loop duplicated in the get_all_test_steps tool handler
(src/tools/test-steps-tools.js, function getAllTestSteps), of the request
query-parameter filtering (ZephyrClient.request), of the response-error
interceptor, of the update_test_case merge (src/tools/test-case-tools.js,
function updateTestCase), of the append_test_steps validation and payload
construction, of the getTestSteps and getTestCase handler control flow,
and of the test-case-key regular expression from src/config.js.

JavaScript-specific behaviour is modelled explicitly:
  - an absent object field is an Option that is none;
  - the expression a || b is a fallback that skips falsy values, so a
    numeric 0 and an absent value both fall through to b;
  - a comparison x >= y where y is undefined is false (NaN semantics);
  - optional chaining r.values?.length yields undefined when values is
    absent, making the comparison with maxResults false.
-/

set_option autoImplicit false

namespace McpZephyr

universe u

/-- Model of a remote JSON response as consumed by the pagination loops.
A response is either a bare JSON array (no object fields, so reading
total, size or values on it yields undefined) or an object envelope whose
values, total and size fields may each be absent. -/
inductive Response (α : Type u) where
  | bare (items : List α)
  | envelope (values : Option (List α)) (total : Option Nat) (size : Option Nat)

/-- JavaScript a || b on optional naturals: undefined and 0 are falsy and
fall through to the right operand. -/
def jsOr (a b : Option Nat) : Option Nat :=
  match a with
  | some t => if t = 0 then b else some t
  | none => b

/-- JavaScript comparison n >= t where t may be undefined: comparison with
undefined is false (it coerces to NaN). -/
def jsGeUndef (n : Nat) (t : Option Nat) : Bool :=
  match t with
  | some t => n ≥ t
  | none => false

/-- Items appended by one loop iteration, from the source lines
if (response.values) ... push(...response.values) else if
(Array.isArray(response)) push(...response) (zephyr-client.js lines 83-87
and test-steps-tools.js lines 173-177). A present values array is always
truthy in JavaScript, even when empty. -/
def appendedItems {α : Type u} : Response α → List α
  | .bare items => items
  | .envelope (some vs) _ _ => vs
  | .envelope none _ _ => []

/-- The field total read by the loops, undefined for a bare array. -/
def respTotal {α : Type u} : Response α → Option Nat
  | .bare _ => none
  | .envelope _ t _ => t

/-- The field size read by the loops, undefined for a bare array. -/
def respSize {α : Type u} : Response α → Option Nat
  | .bare _ => none
  | .envelope _ _ s => s

/-- The expression response.values?.length < maxResults from the break
condition: undefined when the response has no values field (bare array or
envelope without values), in which case the comparison is false. -/
def shortPage {α : Type u} (r : Response α) (maxResults : Nat) : Bool :=
  match r with
  | .bare _ => false
  | .envelope (some vs) _ _ => vs.length < maxResults
  | .envelope none _ _ => false

/-- Effective total of getAllPaginated (zephyr-client.js line 90):
const total = response.total || response.size; with no fallback to 0, so
the result may be undefined. -/
def effTotalPaginated {α : Type u} (r : Response α) : Option Nat :=
  jsOr (respTotal r) (respSize r)

/-- Effective total of the getAllTestSteps handler (test-steps-tools.js
line 180): const total = response.total || response.size || 0; always a
number. -/
def effTotalTestSteps {α : Type u} (r : Response α) : Option Nat :=
  jsOr (jsOr (respTotal r) (respSize r)) (some 0)

/-- Break condition of one loop iteration, from the source line
if (allResults.length >= total || response.values?.length < maxResults),
parameterised by the total computation of the enclosing loop. -/
def breakCond {α : Type u} (totalFn : Response α → Option Nat)
    (r : Response α) (accLen maxResults : Nat) : Bool :=
  jsGeUndef accLen (totalFn r) || shortPage r maxResults

/-- Fuel-indexed embedding of the while (true) pagination loop shared by
getAllPaginated (zephyr-client.js lines 76-99) and the getAllTestSteps
handler (test-steps-tools.js lines 166-186); the two differ only in the
total computation, passed as totalFn. reqFn maps a startAt offset to the
remote response. Returns the accumulated items and the number of page
fetches issued; none means the fuel ran out before the loop broke. -/
def pagLoop {α : Type u} (totalFn : Response α → Option Nat)
    (reqFn : Nat → Response α) (maxResults : Nat) :
    List α → Nat → Nat → Option (List α × Nat)
  | _, _, 0 => none
  | acc, startAt, fuel + 1 =>
    let r := reqFn startAt
    let acc2 := acc ++ appendedItems r
    if breakCond totalFn r acc2.length maxResults then
      some (acc2, 1)
    else
      match pagLoop totalFn reqFn maxResults acc2 (startAt + maxResults) fuel with
      | none => none
      | some (res, k) => some (res, k + 1)

/-- The client utility getAllPaginated, run with the given fuel. -/
def getAllPaginated {α : Type u} (reqFn : Nat → Response α)
    (maxResults : Nat) (fuel : Nat) : Option (List α × Nat) :=
  pagLoop effTotalPaginated reqFn maxResults [] 0 fuel

/-- The pagination loop of the get_all_test_steps handler, which fixes
const maxResults = 100 (test-steps-tools.js line 168). -/
def getAllTestStepsLoop {α : Type u} (reqFn : Nat → Response α)
    (fuel : Nat) : Option (List α × Nat) :=
  pagLoop effTotalTestSteps reqFn 100 [] 0 fuel

/-- Success envelope of the get_all_test_steps handler
(test-steps-tools.js lines 188-200): it reports the accumulated steps and
totalSteps equal to their count. -/
structure AllStepsEnvelope (α : Type u) where
  testCaseKey : String
  testSteps : List α
  totalSteps : Nat
  deriving Repr, DecidableEq

/-- Body of the get_all_test_steps handler after validation: run the loop
and wrap the result in its envelope. -/
def getAllTestStepsEnvelope {α : Type u} (key : String)
    (reqFn : Nat → Response α) (fuel : Nat) : Option (AllStepsEnvelope α) :=
  (getAllTestStepsLoop reqFn fuel).map fun p => ⟨key, p.1, p.1.length⟩

/-- A well-behaved remote server holding the item list items: the page at
offset startAt with page size maxResults is the corresponding slice, in
an envelope reporting the exact total. -/
def serveFn {α : Type u} (items : List α) (maxResults : Nat)
    (startAt : Nat) : Response α :=
  .envelope (some ((items.drop startAt).take maxResults)) (some items.length) none

/-- Ceiling division, used to state the page-fetch count ceil(n / p). -/
def ceilDiv (n p : Nat) : Nat := (n + p - 1) / p

/-- Modelled from the spec (section 4.2 step 3, the normalization the
claim describes): if the response carries a values field append those
items, else if the response itself is a sequence append it directly, else
append nothing. Compared below with appendedItems, which is taken from
the source. -/
def specNormalize {α : Type u} : Response α → List α
  | .envelope (some vs) _ _ => vs
  | .bare items => items
  | .envelope none _ _ => []

/-- Modelled from the spec (section 4.2 step 4 as worded in the claim):
the total used by the termination check is the reported total, falling
back to a size field, and falling back to 0 when both are absent.
Compared below with the totals the two loops actually use. -/
def specClaimedTotal {α : Type u} (r : Response α) : Nat :=
  (jsOr (respTotal r) (respSize r)).getD 0

/-! Model of JavaScript object values and the query-parameter filtering in
ZephyrClient.request (zephyr-client.js lines 57-73). -/

/-- A JavaScript value stored in a params object: null, undefined, a
number or a string. -/
inductive PVal where
  | vnull
  | vundef
  | vnum (n : Int)
  | vstr (s : String)
  deriving Repr, DecidableEq

/-- The JavaScript loose comparison value != null, true exactly for null
and undefined. -/
def isNullish : PVal → Bool
  | .vnull => true
  | .vundef => true
  | _ => false

/-- Object spread update: writing key k with value v into object m keeps
the position of an existing key and appends a new key at the end, as
JavaScript object spread does. -/
def setKey (m : List (String × PVal)) (k : String) (v : PVal) :
    List (String × PVal) :=
  if m.any (fun kv => kv.1 == k) then
    m.map (fun kv => if kv.1 == k then (k, v) else kv)
  else m ++ [(k, v)]

/-- Semantics of the object literal spread: the entries of b written,
left to right, over a copy of a. -/
def spreadMerge (a b : List (String × PVal)) : List (String × PVal) :=
  b.foldl (fun acc kv => setKey acc kv.1 kv.2) a

/-- The filter in request: Object.entries(params).filter on value != null,
keeping only entries that are neither null nor undefined. -/
def filterNullish (params : List (String × PVal)) : List (String × PVal) :=
  params.filter (fun kv => !(isNullish kv.2))

/-- The params object handed to the underlying axios call, from
zephyr-client.js lines 62-69: the object literal spreads params first and
then the filtered copy of params over it. -/
def mergedRequestParams (params : List (String × PVal)) :
    List (String × PVal) :=
  spreadMerge params (filterNullish params)

/-! Model of the test-case-key validation regex from src/config.js line
51: testCaseKeyPattern is the unanchored /.+-T[0-9]+/, applied with
RegExp.test by every key-taking handler. -/

/-- True when the character list starts with a match of the pattern core:
one non-line-terminator character (the shortest witness of the
one-or-more dot), then the literal -T, then one digit (the shortest
witness of the digit repetition). -/
def keyWindow : List Char → Bool
  | c :: '-' :: 'T' :: d :: _ =>
    decide (c ≠ '\n') && decide (c ≠ '\r') &&
    decide (c ≠ Char.ofNat 0x2028) && decide (c ≠ Char.ofNat 0x2029) &&
    d.isDigit
  | _ => false

/-- Unanchored search: the pattern matches somewhere in the list. A
string contains a substring matching the regex dot-plus, -T, digit-plus
exactly when some position carries a non-line-terminator character
immediately followed by -T and a digit, so scanning for that four
character window is equivalent to RegExp.test of the pattern. -/
def keyScanChars : List Char → Bool
  | [] => false
  | c :: rest => keyWindow (c :: rest) || keyScanChars rest

/-- config.testCaseKeyPattern.test from src/config.js line 51, the
validation shared by every handler that takes a test-case key. -/
def testCaseKeyTest (s : String) : Bool :=
  keyScanChars s.toList

/-- Modelled from the spec: the advertised key form [A-Z]+-T[0-9]+,
anchored at both ends as the error messages and the README present it
(one or more uppercase letters, then -T, then one or more digits, and
nothing else). Compared below with testCaseKeyTest, which embeds the
pattern the code actually uses. -/
def advertisedKeyFormat (s : String) : Bool :=
  match s.toList.span Char.isUpper with
  | (pre, rest) =>
    !pre.isEmpty &&
    match rest with
    | '-' :: 'T' :: ds => !ds.isEmpty && ds.all Char.isDigit
    | _ => false

/-! Model of the append_test_steps handler validation and payload
construction (test-steps-tools.js lines 64-122). -/

/-- One caller-supplied step object; absent fields are none. -/
structure StepArg where
  description : Option String
  expectedResult : Option String
  data : Option String
  attachments : Option (List String)
  deriving Repr, DecidableEq

/-- The inline object built for one step (test-steps-tools.js lines
94-111): description always, the optional fields only when the caller
supplied them, with data renamed to testData. -/
structure InlineStep where
  description : String
  expectedResult : Option String
  testData : Option String
  attachments : Option (List String)
  deriving Repr, DecidableEq

/-- One item of the submitted payload: the step wrapped under an inline
key. -/
structure FormattedStep where
  inline : InlineStep
  deriving Repr, DecidableEq

/-- The request body submitted to the remote test-steps endpoint
(test-steps-tools.js lines 117-120). -/
structure TestStepsPayload where
  mode : String
  items : List FormattedStep
  deriving Repr, DecidableEq

/-- JavaScript falsiness of an optional string: absent or empty. -/
def jsFalsyStr : Option String → Bool
  | none => true
  | some s => s.isEmpty

/-- The steps.map of lines 89-114: each step must have a truthy
description (the check is the falsy test, so an empty string also fails),
and the first offender aborts the whole map with its one-based index. -/
def formatSteps : Nat → List StepArg → Except String (List FormattedStep)
  | _, [] => .ok []
  | i, s :: rest =>
    if jsFalsyStr s.description then
      .error ("Step " ++ toString (i + 1) ++ " is missing required field: description")
    else
      match formatSteps (i + 1) rest with
      | .error e => .error e
      | .ok l =>
        .ok (⟨⟨s.description.getD "", s.expectedResult, s.data, s.attachments⟩⟩ :: l)

/-- Arguments of append_test_steps; steps is none when absent or not an
array (the code lumps both into the same rejection). -/
structure AppendArgs where
  testCaseKey : Option String
  steps : Option (List StepArg)

/-- Everything the appendTestSteps handler does before the remote call
(test-steps-tools.js lines 66-120), in source order: key presence, key
pattern, steps array presence, length at least 1, length at most 100,
then the per-step formatting; the value is the payload submitted to the
remote endpoint. -/
def appendTestStepsValidate (args : AppendArgs) : Except String TestStepsPayload :=
  if jsFalsyStr args.testCaseKey then .error "testCaseKey is required"
  else if !testCaseKeyTest (args.testCaseKey.getD "") then
    .error "Invalid testCaseKey format. Must match pattern: [A-Z]+-T[0-9]+"
  else
    match args.steps with
    | none => .error "steps must be provided as an array"
    | some steps =>
      if steps.length = 0 then .error "At least one step must be provided"
      else if steps.length > 100 then .error "Maximum 100 steps can be added per request"
      else
        match formatSteps 0 steps with
        | .error e => .error e
        | .ok items => .ok ⟨"OVERWRITE", items⟩

/-- Number of remote calls issued by the appendTestSteps handler: the
client call at line 122 sits after every validation step, so a rejected
argument object reaches it zero times and an accepted one exactly once. -/
def appendRemoteCalls (args : AppendArgs) : Nat :=
  match appendTestStepsValidate args with
  | .error _ => 0
  | .ok _ => 1

/-! Model of the updateTestCase handler merge (test-case-tools.js lines
179-232): the handler fetches the current record and builds the PUT body
field by field. -/

/-- The caller-suppliable labels argument: a single string or an array of
strings, as the schema admits both. -/
inductive LabelsArg where
  | single (s : String)
  | many (l : List String)
  deriving Repr, DecidableEq

/-- The current test-case record as fetched from the remote service, with
the fields the update handler reads; optional fields may be absent on the
remote record. -/
structure TestCaseRecord where
  id : Nat
  name : String
  projectId : Nat
  statusId : Nat
  priorityId : Nat
  folderId : Nat
  objective : Option String
  precondition : Option String
  estimatedTime : Option Nat
  labels : Option (List String)
  description : Option String
  component : Option Nat
  owner : Option String
  customFields : Option (List (String × String))
  deriving Repr, DecidableEq

/-- Arguments of update_test_case after the required testCaseKey passed
validation; every other field is optional and none means the caller
omitted it (the code tests omission with a strict undefined check). -/
structure UpdateArgs where
  testCaseKey : String
  name : Option String
  description : Option String
  folderId : Option Nat
  component : Option Nat
  labels : Option LabelsArg
  objective : Option String
  precondition : Option String
  estimatedTime : Option Nat
  deriving Repr, DecidableEq

/-- The body submitted to the remote PUT (testCaseData in the source):
project, status and priority are collapsed to their id subobjects, labels
is always an array and customFields always an object. -/
structure UpdatePayload where
  id : Nat
  key : String
  name : String
  projectId : Nat
  statusId : Nat
  priorityId : Nat
  folderId : Nat
  objective : Option String
  precondition : Option String
  estimatedTime : Option Nat
  labels : List String
  description : Option String
  component : Option Nat
  owner : Option String
  customFields : List (String × String)
  deriving Repr, DecidableEq

/-- The testCaseData object built at test-case-tools.js lines 202-230 from
the fetched record and the caller arguments: each caller field is used
when it is not undefined, otherwise the fetched value is kept; supplied
estimatedTime is multiplied by 60000 (minutes to milliseconds), supplied
labels are wrapped into an array when a single string, omitted labels
fall back to the fetched labels or an empty array, and customFields falls
back to an empty object. -/
def updateTestCasePayload (current : TestCaseRecord) (args : UpdateArgs) :
    UpdatePayload :=
  { id := current.id
    key := args.testCaseKey
    name := args.name.getD current.name
    projectId := current.projectId
    statusId := current.statusId
    priorityId := current.priorityId
    folderId := args.folderId.getD current.folderId
    objective := match args.objective with
      | some v => some v
      | none => current.objective
    precondition := match args.precondition with
      | some v => some v
      | none => current.precondition
    estimatedTime := match args.estimatedTime with
      | some e => some (e * 60000)
      | none => current.estimatedTime
    labels := match args.labels with
      | some (.single s) => [s]
      | some (.many l) => l
      | none => current.labels.getD []
    description := match args.description with
      | some v => some v
      | none => current.description
    component := match args.component with
      | some v => some v
      | none => current.component
    owner := current.owner
    customFields := current.customFields.getD [] }

/-! Model of the response-error interceptor of ZephyrClient
(zephyr-client.js lines 36-53), which assembles the error object every
failed remote call rejects with. -/

/-- The HTTP response attached to an axios error when the server
answered; body is the response data, absent when the server sent none. -/
structure HttpResponseInfo where
  status : Nat
  statusText : String
  body : Option String
  deriving Repr, DecidableEq

/-- The request config attached to an axios error when the request was
built; method and data may be absent on the config. -/
structure RequestConfigInfo where
  url : String
  method : Option String
  data : Option String
  params : List (String × PVal)
  deriving Repr, DecidableEq

/-- An axios error: a pure network failure has no response, a request
setup failure may have no config, and a message is always present. -/
structure AxiosError where
  response : Option HttpResponseInfo
  config : Option RequestConfigInfo
  message : String
  deriving Repr, DecidableEq

/-- The errorDetails object the interceptor rejects with; every field
built through optional chaining may be undefined. -/
structure ErrorDetails where
  status : Option Nat
  statusText : Option String
  url : Option String
  method : Option String
  message : String
  requestData : Option String
  params : Option (List (String × PVal))
  responseData : Option String
  deriving Repr, DecidableEq

/-- The interceptor body (zephyr-client.js lines 37-49): each field reads
through optional chaining, method is uppercased when present, and
responseData is added only when the response carries a truthy body (an
empty string body is falsy and therefore dropped). -/
def buildErrorDetails (e : AxiosError) : ErrorDetails :=
  { status := e.response.map HttpResponseInfo.status
    statusText := e.response.map HttpResponseInfo.statusText
    url := e.config.map RequestConfigInfo.url
    method := (e.config.bind RequestConfigInfo.method).map String.toUpper
    message := e.message
    requestData := e.config.bind RequestConfigInfo.data
    params := e.config.map RequestConfigInfo.params
    responseData :=
      match e.response with
      | some r =>
        match r.body with
        | some s => if s.isEmpty then none else some s
        | none => none
      | none => none }

/-! Model of the getTestSteps and getTestCase handler control flow
(test-steps-tools.js lines 14-58 and test-case-tools.js lines 64-96),
including the failure mode of the catch blocks when the handler is
invoked with an undefined arguments object. -/

/-- The uniform result envelope a handler returns: one text content item
and the error flag. The serialized JSON text is abstracted to the string
it is built from; the claims below depend only on the envelope shape. -/
structure ToolEnvelope where
  text : String
  isError : Bool
  deriving Repr, DecidableEq

/-- formatError from src/utils/error-handler.js: the message prefixed
with the operation description (the appended JSON dump of the error
object is abstracted away; no claim depends on it). -/
def formatError (message operation : String) : String :=
  "Error " ++ operation ++ ": " ++ message

/-- JavaScript template interpolation of a possibly absent string: an
undefined value renders as the literal text undefined. -/
def jsStr (o : Option String) : String :=
  o.getD "undefined"

/-- Arguments of get_test_steps; any field may be absent. -/
structure GetStepsArgs where
  testCaseKey : Option String
  maxResults : Option Nat
  startAt : Option Nat
  deriving Repr, DecidableEq

/-- Arguments of get_test_case. -/
structure KeyArgs where
  testCaseKey : Option String
  deriving Repr, DecidableEq

/-- The try block of getTestSteps (test-steps-tools.js lines 15-47). The
arguments value is none when the handler received undefined, in which
case the opening destructuring throws. remote is the outcome of the
client call, an error value standing for a rejected remote call; its ok
payload is the serialized response the success envelope prints. An error
result models a JavaScript exception in flight. -/
def getTestStepsTry (remote : Except String String) :
    Option GetStepsArgs → Except String ToolEnvelope
  | none => .error "TypeError: cannot destructure testCaseKey of undefined"
  | some a =>
    if jsFalsyStr a.testCaseKey then .error "testCaseKey is required"
    else if !testCaseKeyTest (a.testCaseKey.getD "") then
      .error "Invalid testCaseKey format. Must match pattern: [A-Z]+-T[0-9]+"
    else
      match remote with
      | .error m => .error m
      | .ok s => .ok ⟨s, false⟩

/-- The whole getTestSteps handler: the catch block (lines 48-58) builds
its message by interpolating args.testCaseKey, which itself throws when
args is undefined, so that exception escapes the handler (the outer
error result). -/
def getTestStepsHandler (remote : Except String String)
    (args : Option GetStepsArgs) : Except String ToolEnvelope :=
  match getTestStepsTry remote args with
  | .ok env => .ok env
  | .error msg =>
    match args with
    | none => .error "TypeError: cannot read testCaseKey of undefined"
    | some a =>
      .ok ⟨formatError msg ("fetching test steps for " ++ jsStr a.testCaseKey), true⟩

/-- Number of remote calls issued by getTestSteps: the client call at
line 31 is reached exactly when every validation before it passed. -/
def getTestStepsRemoteCalls (args : Option GetStepsArgs) : Nat :=
  match args with
  | none => 0
  | some a =>
    if jsFalsyStr a.testCaseKey then 0
    else if !testCaseKeyTest (a.testCaseKey.getD "") then 0
    else 1

/-- The try block of getTestCase (test-case-tools.js lines 65-84), with
the same validation sequence. -/
def getTestCaseTry (remote : Except String String) :
    Option KeyArgs → Except String ToolEnvelope
  | none => .error "TypeError: cannot destructure testCaseKey of undefined"
  | some a =>
    if jsFalsyStr a.testCaseKey then .error "testCaseKey is required"
    else if !testCaseKeyTest (a.testCaseKey.getD "") then
      .error "Invalid testCaseKey format. Must match pattern: [A-Z]+-T[0-9]+"
    else
      match remote with
      | .error m => .error m
      | .ok tc => .ok ⟨tc, false⟩

/-- The whole getTestCase handler; its catch block (lines 85-95) also
interpolates args.testCaseKey and therefore throws on undefined args. -/
def getTestCaseHandler (remote : Except String String)
    (args : Option KeyArgs) : Except String ToolEnvelope :=
  match getTestCaseTry remote args with
  | .ok env => .ok env
  | .error msg =>
    match args with
    | none => .error "TypeError: cannot read testCaseKey of undefined"
    | some a =>
      .ok ⟨formatError msg ("fetching test case " ++ jsStr a.testCaseKey), true⟩

/-! Helper lemmas. -/

theorem ceilDiv_eq_succ_div (x p : Nat) (hp : 1 ≤ p) (hx : 1 ≤ x) :
    ceilDiv x p = (x - 1) / p + 1 := by
  unfold ceilDiv
  have h : x + p - 1 = (x - 1) + p := by omega
  rw [h, Nat.add_div_right _ (by omega)]

theorem ceilDiv_pos (x p : Nat) (hp : 1 ≤ p) (hx : 1 ≤ x) :
    1 ≤ ceilDiv x p := by
  rw [ceilDiv_eq_succ_div x p hp hx]
  exact Nat.le_add_left 1 _

theorem ceilDiv_eq_one (x p : Nat) (hp : 1 ≤ p) (hx : 1 ≤ x) (hxp : x ≤ p) :
    ceilDiv x p = 1 := by
  rw [ceilDiv_eq_succ_div x p hp hx]
  have h : (x - 1) / p = 0 := Nat.div_eq_of_lt (by omega)
  omega

theorem ceilDiv_step (x p : Nat) (hp : 1 ≤ p) (hxp : p < x) :
    ceilDiv x p = ceilDiv (x - p) p + 1 := by
  rw [ceilDiv_eq_succ_div x p hp (by omega),
    ceilDiv_eq_succ_div (x - p) p hp (by omega)]
  have h : x - 1 = (x - p - 1) + p := by omega
  rw [h, Nat.add_div_right _ (by omega)]

theorem jsGeUndef_some (n t : Nat) : jsGeUndef n (some t) = decide (t ≤ n) := rfl

theorem jsGeUndef_none (n : Nat) : jsGeUndef n none = false := rfl

/-- One-step unfolding of the pagination loop at positive fuel. -/
theorem pagLoop_succ {α : Type u} (totalFn : Response α → Option Nat)
    (reqFn : Nat → Response α) (m : Nat) (acc : List α) (startAt fuel : Nat) :
    pagLoop totalFn reqFn m acc startAt (fuel + 1) =
      if breakCond totalFn (reqFn startAt)
          (acc ++ appendedItems (reqFn startAt)).length m then
        some (acc ++ appendedItems (reqFn startAt), 1)
      else
        match pagLoop totalFn reqFn m (acc ++ appendedItems (reqFn startAt))
            (startAt + m) fuel with
        | none => none
        | some (res, k) => some (res, k + 1) := rfl

/-- Running either pagination loop against the well-behaved server
serveFn: starting after j full pages, the loop returns the whole item
list in order using ceil(remaining / p) further fetches, for any total
computation that reads the exact total off the served envelope. -/
theorem pagLoop_serveFn {α : Type u} (totalFn : Response α → Option Nat)
    (items : List α) (p : Nat) (hp : 1 ≤ p)
    (htot : ∀ a : Nat, totalFn (serveFn items p a) = some items.length) :
    ∀ fuel j, j * p < items.length →
      ceilDiv (items.length - j * p) p ≤ fuel →
      pagLoop totalFn (serveFn items p) p (items.take (j * p)) (j * p) fuel =
        some (items, ceilDiv (items.length - j * p) p) := by
  intro fuel
  induction fuel with
  | zero =>
    intro j hj hf
    have h1 := ceilDiv_pos (items.length - j * p) p hp (by omega)
    omega
  | succ fuel ih =>
    intro j hj hf
    have hvs : appendedItems (serveFn items p (j * p)) = (items.drop (j * p)).take p := rfl
    have hacc : items.take (j * p) ++ (items.drop (j * p)).take p =
        items.take (j * p + p) := (List.take_add items (j * p) p).symm
    have hlen : (items.take (j * p + p)).length = min (j * p + p) items.length := by
      rw [List.length_take]
    have hsp : shortPage (serveFn items p (j * p)) p =
        decide (min p (items.length - j * p) < p) := by
      show decide (((items.drop (j * p)).take p).length < p) = _
      rw [List.length_take, List.length_drop]
    have hbc : breakCond totalFn (serveFn items p (j * p))
        (items.take (j * p + p)).length p =
        (decide (items.length ≤ min (j * p + p) items.length) ||
          decide (min p (items.length - j * p) < p)) := by
      rw [breakCond, htot, jsGeUndef_some, hsp, hlen]
    rw [pagLoop_succ, hvs, hacc, hbc]
    by_cases hlast : items.length ≤ j * p + p
    · -- final page: the accumulated length reaches the reported total
      have hb1 : decide (items.length ≤ min (j * p + p) items.length) = true := by
        simp only [decide_eq_true_eq]
        omega
      rw [hb1, Bool.true_or, if_pos rfl]
      rw [List.take_of_length_le hlast,
        ceilDiv_eq_one (items.length - j * p) p hp (by omega) (by omega)]
    · -- full page: the loop continues with the next offset
      push_neg at hlast
      have hb1 : decide (items.length ≤ min (j * p + p) items.length) = false := by
        simp only [decide_eq_false_iff_not]
        omega
      have hb2 : decide (min p (items.length - j * p) < p) = false := by
        simp only [decide_eq_false_iff_not]
        omega
      rw [hb1, hb2, Bool.or_self, if_neg (by simp)]
      have hjp : j * p + p = (j + 1) * p := by ring
      have hstep : ceilDiv (items.length - j * p) p =
          ceilDiv (items.length - (j + 1) * p) p + 1 := by
        have h1 : items.length - (j + 1) * p = (items.length - j * p) - p := by omega
        rw [h1]
        exact ceilDiv_step (items.length - j * p) p hp (by omega)
      rw [hjp, ih (j + 1) (by omega) (by omega), hstep]

/-- Termination from an eventually short page: when the response k pages
ahead of the current offset is an envelope whose values array is shorter
than the page size, the loop breaks within k+1 iterations, whatever the
earlier responses and the total computation are. -/
theorem pagLoop_isSome_of_shortPage {α : Type u}
    (totalFn : Response α → Option Nat) (reqFn : Nat → Response α) (m : Nat) :
    ∀ k acc startAt, shortPage (reqFn (startAt + k * m)) m = true →
      (pagLoop totalFn reqFn m acc startAt (k + 1)).isSome := by
  intro k
  induction k with
  | zero =>
    intro acc startAt hshort
    rw [pagLoop_succ]
    simp only [Nat.zero_mul, Nat.add_zero] at hshort
    have hb : breakCond totalFn (reqFn startAt)
        (acc ++ appendedItems (reqFn startAt)).length m = true := by
      rw [breakCond, hshort, Bool.or_true]
    rw [hb, if_pos rfl]
    rfl
  | succ k ih =>
    intro acc startAt hshort
    rw [pagLoop_succ]
    by_cases hb : breakCond totalFn (reqFn startAt)
        (acc ++ appendedItems (reqFn startAt)).length m = true
    · rw [hb, if_pos rfl]
      rfl
    · rw [Bool.not_eq_true] at hb
      rw [hb, if_neg (by simp)]
      have hsh : shortPage (reqFn (startAt + m + k * m)) m = true := by
        have h1 : startAt + m + k * m = startAt + (k + 1) * m := by ring
        rw [h1]
        exact hshort
      have hrec := ih (acc ++ appendedItems (reqFn startAt)) (startAt + m) hsh
      obtain ⟨pr, hpr⟩ := Option.isSome_iff_exists.mp hrec
      rw [hpr]
      rfl

/-- Termination from bounded totals: when every response is an envelope
with a values array and the total computation always produces a number at
most B, the loop breaks once the accumulated length passes B, because
every non-breaking iteration appends at least a full page. -/
theorem pagLoop_isSome_of_bounded {α : Type u}
    (totalFn : Response α → Option Nat) (reqFn : Nat → Response α) (m : Nat)
    (hm : 1 ≤ m)
    (hvals : ∀ a, ∃ vs t s, reqFn a = Response.envelope (some vs) t s)
    (B : Nat) (hB : ∀ a, ∃ t, totalFn (reqFn a) = some t ∧ t ≤ B) :
    ∀ fuel acc startAt, 1 ≤ fuel → B ≤ acc.length + (fuel - 1) * m →
      (pagLoop totalFn reqFn m acc startAt fuel).isSome := by
  intro fuel
  induction fuel with
  | zero =>
    intro acc startAt h1 _
    omega
  | succ fuel ih =>
    intro acc startAt h1 hBle
    rw [pagLoop_succ]
    by_cases hb : breakCond totalFn (reqFn startAt)
        (acc ++ appendedItems (reqFn startAt)).length m = true
    · rw [hb, if_pos rfl]
      rfl
    · rw [Bool.not_eq_true] at hb
      obtain ⟨t, ht, htB⟩ := hB startAt
      obtain ⟨vs, tt, ss, hr⟩ := hvals startAt
      rw [breakCond, ht, jsGeUndef_some, hr] at hb
      simp only [appendedItems, shortPage, Bool.or_eq_false_iff,
        decide_eq_false_iff_not, Nat.not_le, Nat.not_lt] at hb
      obtain ⟨hlt, hlong⟩ := hb
      rw [List.length_append] at hlt
      have hBfuel : B ≤ acc.length + fuel * m := by
        simpa using hBle
      rcases Nat.eq_zero_or_pos fuel with hf0 | hfpos
      · exfalso
        subst hf0
        simp only [Nat.zero_mul, Nat.add_zero] at hBfuel
        omega
      · have hmul : fuel * m = (fuel - 1) * m + m := by
          have h2 : fuel - 1 + 1 = fuel := by omega
          calc fuel * m = (fuel - 1 + 1) * m := by rw [h2]
            _ = (fuel - 1) * m + m := by ring
        have hb2 : breakCond totalFn (reqFn startAt)
            (acc ++ appendedItems (reqFn startAt)).length m = false := by
          rw [breakCond, ht, jsGeUndef_some, hr]
          simp only [appendedItems, shortPage, Bool.or_eq_false_iff,
            decide_eq_false_iff_not, Nat.not_le, Nat.not_lt]
          exact ⟨by rw [List.length_append]; exact hlt, hlong⟩
        rw [hb2, if_neg (by simp)]
        have hnext : B ≤ (acc ++ appendedItems (reqFn startAt)).length
            + (fuel - 1) * m := by
          rw [hr]
          simp only [appendedItems, List.length_append]
          set A := (fuel - 1) * m with hA
          set FM := fuel * m with hFM
          omega
        have hrec := ih (acc ++ appendedItems (reqFn startAt)) (startAt + m)
          hfpos hnext
        obtain ⟨pr, hpr⟩ := Option.isSome_iff_exists.mp hrec
        rw [hpr]
        rfl

/-- The getAllPaginated loop never breaks on bare array responses: a bare
array has neither values nor total nor size, so the length comparison is
against undefined and the short-page check reads an absent values field;
both are false on every iteration. -/
theorem pagLoop_bare_paginated_none {α : Type u} (g : Nat → List α) (m : Nat) :
    ∀ fuel acc startAt,
      pagLoop effTotalPaginated (fun a => Response.bare (g a)) m acc startAt fuel
        = none := by
  intro fuel
  induction fuel with
  | zero =>
    intro acc startAt
    rfl
  | succ fuel ih =>
    intro acc startAt
    rw [pagLoop_succ]
    have hb : breakCond effTotalPaginated (Response.bare (g startAt))
        (acc ++ appendedItems (Response.bare (g startAt))).length m = false := rfl
    rw [hb, if_neg (by simp)]
    rw [ih]

/-- The effective total of the get_all_test_steps loop agrees with the
one of getAllPaginated whenever the latter is a number. -/
theorem effTotalTestSteps_of_paginated {α : Type u} (r : Response α) (t : Nat)
    (h : effTotalPaginated r = some t) : effTotalTestSteps r = some t := by
  show jsOr (jsOr (respTotal r) (respSize r)) (some 0) = some t
  rw [show jsOr (respTotal r) (respSize r) = effTotalPaginated r from rfl, h, jsOr]
  by_cases ht : t = 0
  · subst ht
    rfl
  · rw [if_neg ht]

/-- C1 (amended). For every page size p at least 1 and every nonempty
remote result set of total length n served by serveFn as full pages of p
items until a final short page, the pagination engine getAllPaginated
returns exactly the n items in original server order using ceil(n / p)
page fetches, the get_all_test_steps loop does the same with its fixed
page size of 100, and the handler envelope reports totalSteps equal to n;
on an empty result set the loop still issues one fetch, so the fetch
count there is 1 rather than ceil(0 / p) = 0 (see the counterexample). -/
theorem claim_c1_pagination_exact {α : Type u} (items : List α)
    (p fuel : Nat) (key : String) (hp : 1 ≤ p) (hn : 1 ≤ items.length)
    (hfuel : ceilDiv items.length p ≤ fuel)
    (hfuel2 : ceilDiv items.length 100 ≤ fuel) :
    getAllPaginated (serveFn items p) p fuel
        = some (items, ceilDiv items.length p) ∧
    getAllTestStepsLoop (serveFn items 100) fuel
        = some (items, ceilDiv items.length 100) ∧
    getAllTestStepsEnvelope key (serveFn items 100) fuel
        = some ⟨key, items, items.length⟩ := by
  have htotP : ∀ a : Nat, effTotalPaginated (serveFn items p a)
      = some items.length := by
    intro a
    show jsOr (some items.length) none = some items.length
    rw [jsOr, if_neg (by omega)]
  have htotT : ∀ a : Nat, effTotalTestSteps (serveFn items 100 a)
      = some items.length := by
    intro a
    refine effTotalTestSteps_of_paginated _ _ ?_
    show jsOr (some items.length) none = some items.length
    rw [jsOr, if_neg (by omega)]
  have h1 := pagLoop_serveFn effTotalPaginated items p hp htotP fuel 0
    (by omega) (by simpa using hfuel)
  have h2 := pagLoop_serveFn effTotalTestSteps items 100 (by omega) htotT fuel 0
    (by omega) (by simpa using hfuel2)
  simp only [Nat.zero_mul, List.take_zero, Nat.sub_zero] at h1 h2
  refine ⟨h1, h2, ?_⟩
  rw [getAllTestStepsEnvelope, getAllTestStepsLoop, h2]
  rfl

/-- C1 counterexample. On an empty result set (total length n = 0, page
size 100) the engine issues one page fetch and returns 0 items, while the
claim promises ceil(0 / 100) = 0 fetches: the result differs from the
claimed one at this input. -/
theorem claim_c1_counterexample :
    getAllPaginated (serveFn ([] : List Nat) 100) 100 1 = some ([], 1) ∧
    getAllPaginated (serveFn ([] : List Nat) 100) 100 1 ≠
      some ([], ceilDiv ([] : List Nat).length 100) := by
  decide

/-- C1 witness: the 250-step scenario at page size 100 returns all 250
items in 3 fetches and reports totalSteps 250. -/
theorem claim_c1_witness :
    getAllPaginated (serveFn (List.range 250) 100) 100 3
        = some (List.range 250, ceilDiv (List.range 250).length 100) ∧
    getAllTestStepsLoop (serveFn (List.range 250) 100) 3
        = some (List.range 250, ceilDiv (List.range 250).length 100) ∧
    getAllTestStepsEnvelope "PROJ-T1" (serveFn (List.range 250) 100) 3
        = some ⟨"PROJ-T1", List.range 250, (List.range 250).length⟩ := by
  exact claim_c1_pagination_exact (List.range 250) 100 3 "PROJ-T1"
    (by decide) (by simp) (by simp [ceilDiv]) (by simp [ceilDiv])

/-- C2 (amended). Both pagination loops terminate for every sequence of
enveloped responses carrying a values array, whenever the effective
totals are bounded or some page is eventually short; and the
get_all_test_steps loop additionally terminates (after the first fetch)
on every sequence of bare array responses because its total falls back to
0. The same does not hold for getAllPaginated on bare responses (see the
counterexample). -/
theorem claim_c2_termination {α : Type u} (reqFn : Nat → Response α) (m : Nat)
    (hm : 1 ≤ m)
    (henv : ∀ a, ∃ vs t s, reqFn a = Response.envelope (some vs) t s)
    (hterm : (∃ B, ∀ a, ∃ t, effTotalPaginated (reqFn a) = some t ∧ t ≤ B) ∨
      (∃ k, shortPage (reqFn (k * m)) m = true)) :
    (∃ fuel, (getAllPaginated reqFn m fuel).isSome) ∧
    (∃ fuel, (pagLoop effTotalTestSteps reqFn m [] 0 fuel).isSome) ∧
    (∀ (g : Nat → List α) (key : String), ∃ envl,
      getAllTestStepsEnvelope key (fun a => Response.bare (g a)) 1 = some envl) := by
  have hBmul : ∀ B : Nat, B ≤ B * m := by
    intro B
    have h := Nat.mul_le_mul_left B hm
    simpa using h
  refine ⟨?_, ?_, ?_⟩
  · rcases hterm with ⟨B, hB⟩ | ⟨k, hk⟩
    · exact ⟨B + 1, pagLoop_isSome_of_bounded effTotalPaginated reqFn m hm henv
        B hB (B + 1) [] 0 (by omega) (by simpa using hBmul B)⟩
    · exact ⟨k + 1, pagLoop_isSome_of_shortPage effTotalPaginated reqFn m k [] 0
        (by simpa using hk)⟩
  · rcases hterm with ⟨B, hB⟩ | ⟨k, hk⟩
    · have hB2 : ∀ a, ∃ t, effTotalTestSteps (reqFn a) = some t ∧ t ≤ B := by
        intro a
        obtain ⟨t, ht, htB⟩ := hB a
        exact ⟨t, effTotalTestSteps_of_paginated _ t ht, htB⟩
      exact ⟨B + 1, pagLoop_isSome_of_bounded effTotalTestSteps reqFn m hm henv
        B hB2 (B + 1) [] 0 (by omega) (by simpa using hBmul B)⟩
    · exact ⟨k + 1, pagLoop_isSome_of_shortPage effTotalTestSteps reqFn m k [] 0
        (by simpa using hk)⟩
  · intro g key
    refine ⟨⟨key, g 0, (g 0).length⟩, ?_⟩
    rw [getAllTestStepsEnvelope, getAllTestStepsLoop, pagLoop_succ]
    have hb : breakCond effTotalTestSteps (Response.bare (g 0))
        (([] : List α) ++ appendedItems (Response.bare (g 0))).length 100 = true := by
      rw [breakCond]
      have h1 : effTotalTestSteps (Response.bare (g 0)) = some 0 := rfl
      rw [h1, jsGeUndef_some]
      simp
    rw [hb, if_pos rfl]
    simp [appendedItems]

/-- C2 counterexample. The claim extends termination to bare,
non-enveloped sequence responses, but getAllPaginated on a server that
always answers with the bare one-element array, a short page for page
size 100 from the first fetch on, never terminates: no amount of fuel
makes the loop break, because a bare array carries neither a total nor a
values field. -/
theorem claim_c2_counterexample :
    ¬ ∃ fuel,
      (getAllPaginated (fun _ => Response.bare ([42] : List Nat)) 100 fuel).isSome := by
  rintro ⟨fuel, hs⟩
  rw [getAllPaginated, pagLoop_bare_paginated_none (fun _ => [42]) 100 fuel [] 0] at hs
  simp at hs

/-- C2 witness: a five-element enveloped server with page size 2 has a
short page after two full pages, and both loops terminate on it. -/
theorem claim_c2_witness :
    (∃ fuel, (getAllPaginated (serveFn (List.range 5) 2) 2 fuel).isSome) ∧
    (∃ fuel, (pagLoop effTotalTestSteps (serveFn (List.range 5) 2) 2 [] 0 fuel).isSome) ∧
    (∀ (g : Nat → List Nat) (key : String), ∃ envl,
      getAllTestStepsEnvelope key (fun a => Response.bare (g a)) 1 = some envl) := by
  exact claim_c2_termination (serveFn (List.range 5) 2) 2 (by decide)
    (fun a => ⟨(((List.range 5).drop a).take 2), some 5, none, by simp [serveFn]⟩)
    (Or.inr ⟨2, by decide⟩)

/-- The total of the get_all_test_steps loop is exactly the claimed one:
reported total, else size, else 0. -/
theorem effTotalTestSteps_eq_claimed {α : Type u} (r : Response α) :
    effTotalTestSteps r = some (specClaimedTotal r) := by
  rw [effTotalTestSteps, specClaimedTotal]
  cases h : jsOr (respTotal r) (respSize r) with
  | none => rfl
  | some t =>
    rw [jsOr]
    by_cases ht : t = 0
    · subst ht
      rw [if_pos rfl]
      rfl
    · rw [if_neg ht]
      rfl

/-- C3 (amended). On every pagination iteration, in both loops, the
normalization is as claimed (values if present, else the bare sequence,
else nothing). The get_all_test_steps loop also uses exactly the claimed
total (reported total, falling back to size, falling back to 0), but
getAllPaginated only does so when total or size yields a number: when
both are absent its total is undefined, the length comparison is false
and the break decision reduces to the short-page check alone, instead of
the claimed fallback to 0 (see the counterexample). -/
theorem claim_c3_normalization_total {α : Type u} (r : Response α) (n m : Nat) :
    appendedItems r = specNormalize r ∧
    breakCond effTotalTestSteps r n m
      = (decide (specClaimedTotal r ≤ n) || shortPage r m) ∧
    (effTotalPaginated r ≠ none →
      breakCond effTotalPaginated r n m
        = (decide (specClaimedTotal r ≤ n) || shortPage r m)) ∧
    (effTotalPaginated r = none →
      breakCond effTotalPaginated r n m = shortPage r m) := by
  refine ⟨?_, ?_, ?_, ?_⟩
  · cases r with
    | bare items => rfl
    | envelope vs t s => cases vs <;> rfl
  · rw [breakCond, effTotalTestSteps_eq_claimed, jsGeUndef_some]
  · intro h
    cases ho : effTotalPaginated r with
    | none => exact absurd ho h
    | some t =>
      have hc : specClaimedTotal r = t := by
        show (jsOr (respTotal r) (respSize r)).getD 0 = t
        rw [show jsOr (respTotal r) (respSize r) = effTotalPaginated r from rfl, ho]
        rfl
      rw [breakCond, ho, jsGeUndef_some, hc]
  · intro h
    rw [breakCond, h, jsGeUndef_none, Bool.false_or]

/-- C3 counterexample. For a full page carried by an envelope with
neither total nor size, the claimed total (fallback 0) makes the break
decision true, but getAllPaginated computes false, because its total has
no fallback to 0 and a comparison with undefined is false. -/
theorem claim_c3_counterexample :
    breakCond effTotalPaginated
      (Response.envelope (some [(0 : Nat)]) none none) 1 1 = false ∧
    (decide (specClaimedTotal (Response.envelope (some [(0 : Nat)]) none none) ≤ 1)
      || shortPage (Response.envelope (some [(0 : Nat)]) none none) 1) = true := by
  decide

/-- C3 witness: the amended per-iteration characterization at an
envelope that reports a total, and at a bare response where only the
short-page check remains. -/
theorem claim_c3_witness :
    appendedItems (Response.envelope (some [(5 : Nat)]) (some 7) none)
      = specNormalize (Response.envelope (some [(5 : Nat)]) (some 7) none) ∧
    breakCond effTotalPaginated (Response.envelope (some [(5 : Nat)]) (some 7) none) 3 1
      = (decide (specClaimedTotal (Response.envelope (some [(5 : Nat)]) (some 7) none) ≤ 3)
        || shortPage (Response.envelope (some [(5 : Nat)]) (some 7) none) 1) ∧
    breakCond effTotalPaginated (Response.bare [(1 : Nat)]) 3 1
      = shortPage (Response.bare [(1 : Nat)]) 1 := by
  refine ⟨(claim_c3_normalization_total
      (Response.envelope (some [(5 : Nat)]) (some 7) none) 3 1).1,
    (claim_c3_normalization_total
      (Response.envelope (some [(5 : Nat)]) (some 7) none) 3 1).2.2.1 (by decide),
    (claim_c3_normalization_total (Response.bare [(1 : Nat)]) 3 1).2.2.2 (by decide)⟩

/-- C4. Contrary to the claim and to the inline comment in the source
(Remove null and undefined values), the filtered copy is spread over an
unfiltered spread of the same params object, so a nullish entry survives
in the params object handed to the underlying HTTP call: the filter has
no effect on the merged object. -/
theorem claim_c4_nullish_params_survive :
    mergedRequestParams [("folderId", PVal.vnull)] = [("folderId", PVal.vnull)] ∧
    (mergedRequestParams [("folderId", PVal.vnull)]).any
      (fun kv => isNullish kv.2) = true ∧
    mergedRequestParams [("a", PVal.vundef), ("b", PVal.vnum 3)]
      = [("a", PVal.vundef), ("b", PVal.vnum 3)] := by
  decide

/-- C5 (amended). The update payload preserves every omitted field from
the fetched record and takes each supplied field from the caller, with
the two conversions the source applies: a supplied estimatedTime is
multiplied by 60000 (minutes to milliseconds), supplied labels are
normalized to an array, and omitted labels with no previous value become
the empty array. -/
theorem claim_c5_update_merge (current : TestCaseRecord) (args : UpdateArgs) :
    (args.name = none → (updateTestCasePayload current args).name = current.name) ∧
    (∀ v, args.name = some v → (updateTestCasePayload current args).name = v) ∧
    (args.description = none →
      (updateTestCasePayload current args).description = current.description) ∧
    (∀ v, args.description = some v →
      (updateTestCasePayload current args).description = some v) ∧
    (args.objective = none →
      (updateTestCasePayload current args).objective = current.objective) ∧
    (∀ v, args.objective = some v →
      (updateTestCasePayload current args).objective = some v) ∧
    (args.precondition = none →
      (updateTestCasePayload current args).precondition = current.precondition) ∧
    (∀ v, args.precondition = some v →
      (updateTestCasePayload current args).precondition = some v) ∧
    (args.folderId = none →
      (updateTestCasePayload current args).folderId = current.folderId) ∧
    (∀ v, args.folderId = some v →
      (updateTestCasePayload current args).folderId = v) ∧
    (args.component = none →
      (updateTestCasePayload current args).component = current.component) ∧
    (∀ v, args.component = some v →
      (updateTestCasePayload current args).component = some v) ∧
    (args.estimatedTime = none →
      (updateTestCasePayload current args).estimatedTime = current.estimatedTime) ∧
    (∀ e, args.estimatedTime = some e →
      (updateTestCasePayload current args).estimatedTime = some (e * 60000)) ∧
    (args.labels = none →
      (updateTestCasePayload current args).labels = current.labels.getD []) ∧
    (∀ s, args.labels = some (LabelsArg.single s) →
      (updateTestCasePayload current args).labels = [s]) ∧
    (∀ l, args.labels = some (LabelsArg.many l) →
      (updateTestCasePayload current args).labels = l) := by
  refine ⟨?_, ?_, ?_, ?_, ?_, ?_, ?_, ?_, ?_, ?_, ?_, ?_, ?_, ?_, ?_, ?_, ?_⟩ <;>
    first
      | (intro h; simp [updateTestCasePayload, h])
      | (intro v h; simp [updateTestCasePayload, h])

/-- C5 counterexample. A caller supplying estimatedTime 5 does not see
the supplied value in the payload: the handler stores 300000, the
minutes-to-milliseconds conversion of 5, so supplied fields do not all
take the supplied value verbatim. -/
theorem claim_c5_counterexample :
    (updateTestCasePayload
      ⟨1, "n", 2, 3, 4, 5, none, none, some 1, none, none, none, none, none⟩
      ⟨"PROJ-T1", none, none, none, none, none, none, none, some 5⟩).estimatedTime
      = some 300000 ∧
    (updateTestCasePayload
      ⟨1, "n", 2, 3, 4, 5, none, none, some 1, none, none, none, none, none⟩
      ⟨"PROJ-T1", none, none, none, none, none, none, none, some 5⟩).estimatedTime
      ≠ some 5 := by
  decide

/-- C5 witness: the merge example from the spec, with description,
objective and precondition playing the roles of a, b and c: updating only
the objective keeps the other two previous values and takes the supplied
one. -/
theorem claim_c5_witness :
    (updateTestCasePayload
      ⟨1, "n", 2, 3, 4, 5, some "2", some "3", none, none, some "1", none, none, none⟩
      ⟨"PROJ-T1", none, none, none, none, none, some "5", none, none⟩).description
      = some "1" ∧
    (updateTestCasePayload
      ⟨1, "n", 2, 3, 4, 5, some "2", some "3", none, none, some "1", none, none, none⟩
      ⟨"PROJ-T1", none, none, none, none, none, some "5", none, none⟩).objective
      = some "5" ∧
    (updateTestCasePayload
      ⟨1, "n", 2, 3, 4, 5, some "2", some "3", none, none, some "1", none, none, none⟩
      ⟨"PROJ-T1", none, none, none, none, none, some "5", none, none⟩).precondition
      = some "3" := by
  refine ⟨(claim_c5_update_merge _ _).2.2.1 rfl,
    (claim_c5_update_merge _ _).2.2.2.2.2.1 "5" rfl,
    (claim_c5_update_merge _ _).2.2.2.2.2.2.1 rfl⟩

/-- Well-formed steps (truthy descriptions) always format successfully,
whatever the starting index. -/
theorem formatSteps_isOk (steps : List StepArg)
    (hwf : ∀ s ∈ steps, jsFalsyStr s.description = false) :
    ∀ i, ∃ l, formatSteps i steps = .ok l := by
  induction steps with
  | nil =>
    intro i
    exact ⟨[], rfl⟩
  | cons s rest ih =>
    intro i
    have hs : jsFalsyStr s.description = false := hwf s (by simp)
    have hrest : ∀ t ∈ rest, jsFalsyStr t.description = false := by
      intro t ht
      exact hwf t (by simp [ht])
    obtain ⟨l, hl⟩ := ih hrest (i + 1)
    refine ⟨⟨⟨s.description.getD "", s.expectedResult, s.data, s.attachments⟩⟩ :: l, ?_⟩
    rw [formatSteps, if_neg (by rw [hs]; exact Bool.false_ne_true), hl]

/-- Every formatted item corresponds position by position to its source
step: the inline description is the step description and the optional
fields pass through unchanged. -/
theorem formatSteps_spec :
    ∀ (steps : List StepArg) (i : Nat) (l : List FormattedStep),
      formatSteps i steps = .ok l →
      List.Forall₂ (fun (fs : FormattedStep) (s : StepArg) =>
        s.description = some fs.inline.description ∧
        fs.inline.expectedResult = s.expectedResult ∧
        fs.inline.testData = s.data ∧
        fs.inline.attachments = s.attachments) l steps := by
  intro steps
  induction steps with
  | nil =>
    intro i l h
    rw [formatSteps] at h
    cases h
    exact List.Forall₂.nil
  | cons s rest ih =>
    intro i l h
    rw [formatSteps] at h
    by_cases hd : jsFalsyStr s.description = true
    · rw [if_pos hd] at h
      cases h
    · rw [if_neg hd] at h
      cases hf : formatSteps (i + 1) rest with
      | error e =>
        rw [hf] at h
        cases h
      | ok l2 =>
        rw [hf] at h
        cases h
        refine List.Forall₂.cons ⟨?_, rfl, rfl, rfl⟩ (ih (i + 1) l2 hf)
        cases ho : s.description with
        | none =>
          rw [ho] at hd
          exact absurd rfl hd
        | some d => rfl

/-- C6. A rejected argument object issues zero remote calls, and at the
boundaries: with a valid key, an empty steps array fails validation, 101
well-formed steps fail validation with zero remote calls, and exactly 100
well-formed steps pass validation. -/
theorem claim_c6_validation_blocks_remote (args : AppendArgs) (e key : String)
    (steps : List StepArg)
    (hfal : jsFalsyStr (some key) = false)
    (hpat : testCaseKeyTest key = true)
    (hwf : ∀ s ∈ steps, jsFalsyStr s.description = false) :
    (appendTestStepsValidate args = .error e → appendRemoteCalls args = 0) ∧
    (steps.length = 0 → ∃ msg,
      appendTestStepsValidate ⟨some key, some steps⟩ = .error msg ∧
      appendRemoteCalls ⟨some key, some steps⟩ = 0) ∧
    (steps.length = 101 → ∃ msg,
      appendTestStepsValidate ⟨some key, some steps⟩ = .error msg ∧
      appendRemoteCalls ⟨some key, some steps⟩ = 0) ∧
    (steps.length = 100 → ∃ payload,
      appendTestStepsValidate ⟨some key, some steps⟩ = .ok payload) := by
  have hopen : appendTestStepsValidate ⟨some key, some steps⟩ =
      (if steps.length = 0 then
        Except.error "At least one step must be provided"
      else if steps.length > 100 then
        Except.error "Maximum 100 steps can be added per request"
      else
        match formatSteps 0 steps with
        | .error e2 => .error e2
        | .ok items => .ok ⟨"OVERWRITE", items⟩) := by
    rw [appendTestStepsValidate]
    rw [if_neg (by simp [hfal]), if_neg (by simp [hpat])]
  refine ⟨?_, ?_, ?_, ?_⟩
  · intro h
    rw [appendRemoteCalls, h]
  · intro h0
    have hv : appendTestStepsValidate ⟨some key, some steps⟩ =
        Except.error "At least one step must be provided" := by
      rw [hopen, if_pos h0]
    exact ⟨_, hv, by rw [appendRemoteCalls, hv]⟩
  · intro h101
    have hv : appendTestStepsValidate ⟨some key, some steps⟩ =
        Except.error "Maximum 100 steps can be added per request" := by
      rw [hopen, if_neg (by omega), if_pos (by omega)]
    exact ⟨_, hv, by rw [appendRemoteCalls, hv]⟩
  · intro h100
    obtain ⟨l, hl⟩ := formatSteps_isOk steps hwf 0
    refine ⟨⟨"OVERWRITE", l⟩, ?_⟩
    rw [hopen, if_neg (by omega), if_neg (by omega), hl]

/-- C6 witness: the boundary scenarios at the key PROJ-T1 with uniform
well-formed steps of each length. -/
theorem claim_c6_witness :
    (∃ msg, appendTestStepsValidate
      ⟨some "PROJ-T1", some ([] : List StepArg)⟩ = .error msg ∧
      appendRemoteCalls ⟨some "PROJ-T1", some ([] : List StepArg)⟩ = 0) ∧
    (∃ msg, appendTestStepsValidate
      ⟨some "PROJ-T1", some (List.replicate 101 ⟨some "s", none, none, none⟩)⟩
        = .error msg ∧
      appendRemoteCalls
        ⟨some "PROJ-T1", some (List.replicate 101 ⟨some "s", none, none, none⟩)⟩ = 0) ∧
    (∃ payload, appendTestStepsValidate
      ⟨some "PROJ-T1", some (List.replicate 100 ⟨some "s", none, none, none⟩)⟩
        = .ok payload) := by
  refine ⟨?_, ?_, ?_⟩
  · exact (claim_c6_validation_blocks_remote ⟨some "PROJ-T1", some []⟩ "" "PROJ-T1"
      [] (by decide) (by decide) (by intro s hs; cases hs)).2.1 rfl
  · exact (claim_c6_validation_blocks_remote
      ⟨some "PROJ-T1", some (List.replicate 101 ⟨some "s", none, none, none⟩)⟩ ""
      "PROJ-T1" (List.replicate 101 ⟨some "s", none, none, none⟩)
      (by decide) (by decide)
      (by
        intro s hs
        rw [List.eq_of_mem_replicate hs]
        rfl)).2.2.1 (by simp)
  · exact (claim_c6_validation_blocks_remote
      ⟨some "PROJ-T1", some (List.replicate 100 ⟨some "s", none, none, none⟩)⟩ ""
      "PROJ-T1" (List.replicate 100 ⟨some "s", none, none, none⟩)
      (by decide) (by decide)
      (by
        intro s hs
        rw [List.eq_of_mem_replicate hs]
        rfl)).2.2.2 (by simp)

/-- C7 (amended). The interceptor envelope always carries the message;
status and statusText are populated exactly when an HTTP response was
received; url, params, method and requestData are populated from the
request config when it is present (method and requestData additionally
require the config to carry them) and absent otherwise; responseData is
populated exactly when the server returned a truthy body. In particular a
pure network failure leaves status and statusText unpopulated, against
the claim (see the counterexample). -/
theorem claim_c7_error_envelope (e : AxiosError) :
    (buildErrorDetails e).message = e.message ∧
    (∀ r, e.response = some r →
      (buildErrorDetails e).status = some r.status ∧
      (buildErrorDetails e).statusText = some r.statusText) ∧
    (e.response = none →
      (buildErrorDetails e).status = none ∧
      (buildErrorDetails e).statusText = none ∧
      (buildErrorDetails e).responseData = none) ∧
    (∀ c, e.config = some c →
      (buildErrorDetails e).url = some c.url ∧
      (buildErrorDetails e).params = some c.params ∧
      (buildErrorDetails e).method = c.method.map String.toUpper ∧
      (buildErrorDetails e).requestData = c.data) ∧
    (e.config = none →
      (buildErrorDetails e).url = none ∧
      (buildErrorDetails e).params = none ∧
      (buildErrorDetails e).method = none ∧
      (buildErrorDetails e).requestData = none) ∧
    (∀ r body, e.response = some r → r.body = some body →
      body.isEmpty = false →
      (buildErrorDetails e).responseData = some body) := by
  refine ⟨rfl, ?_, ?_, ?_, ?_, ?_⟩
  · intro r h
    exact ⟨by simp [buildErrorDetails, h], by simp [buildErrorDetails, h]⟩
  · intro h
    exact ⟨by simp [buildErrorDetails, h], by simp [buildErrorDetails, h],
      by simp [buildErrorDetails, h]⟩
  · intro c h
    exact ⟨by simp [buildErrorDetails, h], by simp [buildErrorDetails, h],
      by simp [buildErrorDetails, h], by simp [buildErrorDetails, h]⟩
  · intro h
    exact ⟨by simp [buildErrorDetails, h], by simp [buildErrorDetails, h],
      by simp [buildErrorDetails, h], by simp [buildErrorDetails, h]⟩
  · intro r body hr hb hne
    simp [buildErrorDetails, hr, hb, hne]

/-- C7 counterexample. A pure network failure, with a config but no HTTP
response, produces an error object whose status and statusText are
undefined: the caller does receive a partially populated error. -/
theorem claim_c7_counterexample :
    (buildErrorDetails
      ⟨none, some ⟨"/testcases", some "get", none, []⟩, "Network Error"⟩).status
      = none ∧
    (buildErrorDetails
      ⟨none, some ⟨"/testcases", some "get", none, []⟩, "Network Error"⟩).statusText
      = none ∧
    (buildErrorDetails
      ⟨none, some ⟨"/testcases", some "get", none, []⟩, "Network Error"⟩).message
      = "Network Error" := by
  refine ⟨rfl, rfl, rfl⟩

/-- C7 witness: a 404 failure with a response body populates every field
of the envelope. -/
theorem claim_c7_witness :
    (buildErrorDetails ⟨some ⟨404, "Not Found", some "missing"⟩,
      some ⟨"/testcases/X-T1", some "get", some "body", [("k", PVal.vnum 1)]⟩,
      "Request failed"⟩).status = some 404 ∧
    (buildErrorDetails ⟨some ⟨404, "Not Found", some "missing"⟩,
      some ⟨"/testcases/X-T1", some "get", some "body", [("k", PVal.vnum 1)]⟩,
      "Request failed"⟩).url = some "/testcases/X-T1" ∧
    (buildErrorDetails ⟨some ⟨404, "Not Found", some "missing"⟩,
      some ⟨"/testcases/X-T1", some "get", some "body", [("k", PVal.vnum 1)]⟩,
      "Request failed"⟩).responseData = some "missing" := by
  refine ⟨((claim_c7_error_envelope _).2.1 _ rfl).1,
    ((claim_c7_error_envelope _).2.2.2.1 _ rfl).1,
    (claim_c7_error_envelope _).2.2.2.2.2 _ "missing" rfl rfl rfl⟩

/-- With a rejected remote call, the try block of getTestSteps always
ends in an exception (either its own validation error or the remote
one). -/
theorem getTestStepsTry_error_of_remote (e : String) (a : GetStepsArgs) :
    ∃ msg, getTestStepsTry (Except.error e) (some a) = .error msg := by
  simp only [getTestStepsTry]
  split_ifs with h1 h2
  · exact ⟨_, rfl⟩
  · exact ⟨_, rfl⟩
  · exact ⟨e, rfl⟩

/-- With a rejected remote call, the try block of getTestCase always ends
in an exception. -/
theorem getTestCaseTry_error_of_remote (e : String) (b : KeyArgs) :
    ∃ msg, getTestCaseTry (Except.error e) (some b) = .error msg := by
  simp only [getTestCaseTry]
  split_ifs with h1 h2
  · exact ⟨_, rfl⟩
  · exact ⟨_, rfl⟩
  · exact ⟨e, rfl⟩

/-- C8 (amended). For every arguments object that is an actual object
(not undefined), the getTestSteps and getTestCase handlers return an
envelope for every remote outcome, and a failed remote call yields an
envelope flagged isError; when the arguments value is undefined the catch
block itself throws while interpolating args.testCaseKey, so the
exception escapes un-enveloped (see the counterexample). -/
theorem claim_c8_handlers_enveloped (remote : Except String String)
    (e : String) (a : GetStepsArgs) (b : KeyArgs) :
    (∃ env, getTestStepsHandler remote (some a) = .ok env) ∧
    (∃ env, getTestStepsHandler (Except.error e) (some a) = .ok env ∧
      env.isError = true) ∧
    (∃ env, getTestCaseHandler remote (some b) = .ok env) ∧
    (∃ env, getTestCaseHandler (Except.error e) (some b) = .ok env ∧
      env.isError = true) := by
  refine ⟨?_, ?_, ?_, ?_⟩
  · cases h : getTestStepsTry remote (some a) with
    | ok env => exact ⟨env, by rw [getTestStepsHandler, h]⟩
    | error msg =>
      exact ⟨⟨formatError msg ("fetching test steps for " ++ jsStr a.testCaseKey),
        true⟩, by rw [getTestStepsHandler, h]⟩
  · obtain ⟨msg, hmsg⟩ := getTestStepsTry_error_of_remote e a
    exact ⟨⟨formatError msg ("fetching test steps for " ++ jsStr a.testCaseKey),
      true⟩, by rw [getTestStepsHandler, hmsg], rfl⟩
  · cases h : getTestCaseTry remote (some b) with
    | ok env => exact ⟨env, by rw [getTestCaseHandler, h]⟩
    | error msg =>
      exact ⟨⟨formatError msg ("fetching test case " ++ jsStr b.testCaseKey),
        true⟩, by rw [getTestCaseHandler, h]⟩
  · obtain ⟨msg, hmsg⟩ := getTestCaseTry_error_of_remote e b
    exact ⟨⟨formatError msg ("fetching test case " ++ jsStr b.testCaseKey),
      true⟩, by rw [getTestCaseHandler, hmsg], rfl⟩

/-- C8 counterexample. When the handlers receive an undefined arguments
value, the catch block rethrows while building its message, so the
handler result is an escaped exception rather than an envelope. -/
theorem claim_c8_counterexample :
    getTestStepsHandler (Except.ok "resp") none
      = Except.error "TypeError: cannot read testCaseKey of undefined" ∧
    getTestCaseHandler (Except.ok "record") none
      = Except.error "TypeError: cannot read testCaseKey of undefined" :=
  ⟨rfl, rfl⟩

/-- C9. Every validation-passing append_test_steps invocation submits a
payload whose mode is the constant OVERWRITE, with each caller step
wrapped as an inline item carrying its description and pass-through
optional fields. -/
theorem claim_c9_overwrite_payload (args : AppendArgs)
    (payload : TestStepsPayload)
    (h : appendTestStepsValidate args = .ok payload) :
    payload.mode = "OVERWRITE" ∧
    ∃ steps, args.steps = some steps ∧
      List.Forall₂ (fun (fs : FormattedStep) (s : StepArg) =>
        s.description = some fs.inline.description ∧
        fs.inline.expectedResult = s.expectedResult ∧
        fs.inline.testData = s.data ∧
        fs.inline.attachments = s.attachments) payload.items steps := by
  rw [appendTestStepsValidate] at h
  by_cases h1 : jsFalsyStr args.testCaseKey = true
  · rw [if_pos h1] at h
    cases h
  · rw [if_neg h1] at h
    by_cases h2 : (!testCaseKeyTest (args.testCaseKey.getD "")) = true
    · rw [if_pos h2] at h
      cases h
    · rw [if_neg h2] at h
      cases hs : args.steps with
      | none =>
        rw [hs] at h
        cases h
      | some steps =>
        rw [hs] at h
        have h2' : (if steps.length = 0 then
              Except.error "At least one step must be provided"
            else if steps.length > 100 then
              Except.error "Maximum 100 steps can be added per request"
            else
              match formatSteps 0 steps with
              | Except.error e2 => Except.error e2
              | Except.ok items =>
                Except.ok (⟨"OVERWRITE", items⟩ : TestStepsPayload))
            = Except.ok payload := h
        by_cases h3 : steps.length = 0
        · rw [if_pos h3] at h2'
          cases h2'
        · rw [if_neg h3] at h2'
          by_cases h4 : steps.length > 100
          · rw [if_pos h4] at h2'
            cases h2'
          · rw [if_neg h4] at h2'
            cases hf : formatSteps 0 steps with
            | error e2 =>
              rw [hf] at h2'
              cases h2'
            | ok items =>
              rw [hf] at h2'
              cases h2'
              exact ⟨rfl, steps, rfl, formatSteps_spec steps 0 items hf⟩

/-- C9 witness: a single-step append for PROJ-T1 validates to the
OVERWRITE payload with the inline-wrapped step. -/
theorem claim_c9_witness :
    (⟨"OVERWRITE", [⟨⟨"hello", some "ok", none, none⟩⟩]⟩ : TestStepsPayload).mode
      = "OVERWRITE" ∧
    ∃ steps, (⟨some "PROJ-T1", some [⟨some "hello", some "ok", none, none⟩]⟩
        : AppendArgs).steps = some steps ∧
      List.Forall₂ (fun (fs : FormattedStep) (s : StepArg) =>
        s.description = some fs.inline.description ∧
        fs.inline.expectedResult = s.expectedResult ∧
        fs.inline.testData = s.data ∧
        fs.inline.attachments = s.attachments)
        (⟨"OVERWRITE", [⟨⟨"hello", some "ok", none, none⟩⟩]⟩
          : TestStepsPayload).items steps :=
  claim_c9_overwrite_payload
    ⟨some "PROJ-T1", some [⟨some "hello", some "ok", none, none⟩]⟩
    ⟨"OVERWRITE", [⟨⟨"hello", some "ok", none, none⟩⟩]⟩ rfl

/-- C10. The shared test-case-key validation is the unanchored regex, so
keys outside the advertised anchored form [A-Z]+-T[0-9]+ pass: a
lowercase project part, embedded whitespace, and trailing characters
after the digits all validate, and getTestSteps proceeds to issue the
remote call with such keys. -/
theorem claim_c10_unanchored_key_validation :
    (advertisedKeyFormat "proj-T1" = false ∧ testCaseKeyTest "proj-T1" = true ∧
      getTestStepsRemoteCalls (some ⟨some "proj-T1", none, none⟩) = 1) ∧
    (advertisedKeyFormat "MY PROJ-T7" = false ∧
      testCaseKeyTest "MY PROJ-T7" = true ∧
      getTestStepsRemoteCalls (some ⟨some "MY PROJ-T7", none, none⟩) = 1) ∧
    (advertisedKeyFormat "PROJ-T1/extra" = false ∧
      testCaseKeyTest "PROJ-T1/extra" = true ∧
      getTestStepsRemoteCalls (some ⟨some "PROJ-T1/extra", none, none⟩) = 1) := by
  decide

end McpZephyr
